import Mathlib

/-!
# Verification of the MayaUsb USB transport core

Shallow embedding of `MayaUsbDevice.cpp` (the AOAP accessory transport engine):
the handshake verification worker, the read loop, the framed JPEG send loop,
the non-blocking frame submission (`sendStereo`), the AOAP control-transfer
sequence (`convertToAccessory`), endpoint enumeration in the constructor, and
the control-string transfer (`sendControlString`).

Worker loops are embedded as functions over explicit event lists: each event
records which branch the concurrent environment resolved at one poll point
(cancellation observed, data arrived, transfer result), and the run returns the
observable trace (bulk writes issued, callback invocations, stores to the
shared flags).  Machine integers are `Nat`/`Int` with explicit `% 2^w` where
the source casts.
-/

namespace MayaUsb

/-- `BUFFER_LEN` in `MayaUsbDevice.h`: the bulk-transfer buffer size. -/
def BUFFER_LEN : Nat := 16384

/-! ## Handshake verification (`MayaUsbDevice::waitHandshakeAsync`)

The worker body, after the flush/wait phase, either observed cancellation or
obtained a bulk read of `read` bytes into `inputBuffer`.  The scan
`for (int i = 0; i < BUFFER_LEN; ++i) if (inputBuffer[i] != (unsigned char) i)`
is the early-exit loop `hsScan`; `buf i` is the byte at offset `i`. -/

/-- The early-exit scan of `waitHandshakeAsync`: starting at offset `i` with
`fuel` offsets left to check, return `false` at the first byte that differs
from `i mod 256` (the source's `(unsigned char) i`), else `true`. -/
def hsScan (buf : Nat → Nat) : Nat → Nat → Bool
  | _, 0 => true
  | i, fuel + 1 => if buf i = i % 256 then hsScan buf (i + 1) fuel else false

/-- The success boolean computed by the handshake worker: the read must have
returned exactly `BUFFER_LEN` bytes and the scan must pass. -/
def hsSuccess (read : Nat) (buf : Nat → Nat) : Bool :=
  if read = BUFFER_LEN then hsScan buf 0 BUFFER_LEN else false

/-- Reference full scan (no early exit): every offset below `BUFFER_LEN` holds
`i mod 256`. -/
def hsFullScan (buf : Nat → Nat) : Bool :=
  decide (∀ i, i < BUFFER_LEN → buf i = i % 256)

/-- Observable outcome of one handshake-worker run. -/
structure HandshakeRun where
  /-- Value stored into the atomic `_handshake` flag (`none` = never stored). -/
  handshakeStore : Option Bool
  /-- Arguments of the callback invocations, in order. -/
  callbackCalls : List Bool
  /-- Whether `cancel->store(true)` ran at the end of the worker body. -/
  cancelStored : Bool
  deriving Repr, DecidableEq

/-- Body of the worker started by `waitHandshakeAsync` after its wait loop
ends: `cancelled` is the loop-exit condition `cancel->load()`; when not
cancelled, `read`/`buf` are the result of the bulk read that ended the loop. -/
def waitHandshakeWorker (cancelled : Bool) (read : Nat) (buf : Nat → Nat) :
    HandshakeRun :=
  if cancelled then
    { handshakeStore := none, callbackCalls := [], cancelStored := true }
  else
    let success := hsSuccess read buf
    { handshakeStore := some success
      callbackCalls := [success]
      cancelStored := true }

/-- `hsScan buf i fuel` succeeds iff every offset in `[i, i + fuel)` matches. -/
theorem hsScan_eq_true_iff (buf : Nat → Nat) :
    ∀ fuel i, hsScan buf i fuel = true ↔
      ∀ j, i ≤ j → j < i + fuel → buf j = j % 256 := by
  intro fuel
  induction fuel with
  | zero => intro i; simp [hsScan]; omega
  | succ f ih =>
    intro i
    simp only [hsScan]
    by_cases h : buf i = i % 256
    · simp only [h, if_true, ih (i + 1)]
      constructor
      · intro hall j hij hjf
        rcases Nat.eq_or_lt_of_le hij with rfl | hlt
        · exact h
        · exact hall j hlt (by omega)
      · intro hall j hij hjf
        exact hall j (by omega) (by omega)
    · simp only [h, if_false]
      constructor
      · intro hfalse; exact absurd hfalse (by simp)
      · intro hall
        exact absurd (hall i le_rfl (by omega)) h

/-- The early-exit scan agrees with the full reference scan. -/
theorem hsScan_eq_fullScan (buf : Nat → Nat) :
    hsScan buf 0 BUFFER_LEN = hsFullScan buf := by
  rcases h : hsFullScan buf with hv | hv
  · simp only [hsFullScan, decide_eq_false_iff_not] at h
    push_neg at h
    rcases h with ⟨j, hjlt, hjne⟩
    by_contra hne
    have := (hsScan_eq_true_iff buf BUFFER_LEN 0).mp
      (by revert hne; cases hsScan buf 0 BUFFER_LEN <;> simp)
    exact hjne (this j (Nat.zero_le j) (by omega))
  · simp only [hsFullScan, decide_eq_true_iff] at h
    exact (hsScan_eq_true_iff buf BUFFER_LEN 0).mpr
      (fun j _ hjf => h j (by omega))

/-! ## Wire framing (`MayaUsbDevice::beginSendLoop`)

The send worker writes, per frame, a 4-byte header
`EndianUtils::nativeToBig((uint32_t)_jpegBufferSize)` and then the JPEG
payload in `BUFFER_LEN`-sized chunks
(`chunk = std::min(BUFFER_LEN, _jpegBufferSize - i)`). -/

/-- Modelled from the spec: `EndianUtils::nativeToBig` lives in
`EndianUtils.h`, which is not part of the sources here; the spec fixes the
wire order of the `uint32` length field to big-endian, so the four header
bytes are the base-256 digits of the value, most significant first. -/
def nativeToBig32 (n : Nat) : List Nat :=
  [n / 2 ^ 24 % 256, n / 2 ^ 16 % 256, n / 2 ^ 8 % 256, n % 256]

/-- Decode four big-endian bytes back into the length they declare. -/
def beDecode32 (bytes : List Nat) : Nat :=
  match bytes with
  | [a, b, c, d] => ((a * 256 + b) * 256 + c) * 256 + d
  | _ => 0

/-- The chunking performed by the send loop's
`for (int i = 0; i < _jpegBufferSize; i += BUFFER_LEN)` write loop: slices of
at most `BUFFER_LEN` bytes, in order. -/
def chunksOf (l : List Nat) : List (List Nat) :=
  if l = [] then []
  else l.take BUFFER_LEN :: chunksOf (l.drop BUFFER_LEN)
termination_by l.length
decreasing_by
  rename_i h
  have : 0 < l.length := List.length_pos.mpr h
  simp only [List.length_drop, BUFFER_LEN]
  omega

/-- One bulk write issued by the send worker. -/
inductive WireWrite where
  /-- The best-effort 4-byte all-zero write issued on cancellation. -/
  | terminationFrame : WireWrite
  /-- The 4-byte length header of a frame. -/
  | header (bytes : List Nat) : WireWrite
  /-- One payload chunk of a frame. -/
  | chunk (bytes : List Nat) : WireWrite
  deriving Repr, DecidableEq

/-- The bytes a `WireWrite` puts on the wire (`uint32_t bytes = 0` is four
zero bytes in either byte order). -/
def WireWrite.bytes : WireWrite → List Nat
  | .terminationFrame => [0, 0, 0, 0]
  | .header b => b
  | .chunk b => b

/-- Chunk-write phase of one frame transmission.  `ok k` tells whether the
bulk transfer of write number `k` of this frame reported all its bytes
written (`written < chunk` in the source marks the iteration failed and
breaks out).  Returns the writes attempted and the `error` flag. -/
def chunkAttempts (ok : Nat → Bool) : Nat → List (List Nat) →
    List WireWrite × Bool
  | _, [] => ([], false)
  | k, c :: cs =>
    if ok k then
      let r := chunkAttempts ok (k + 1) cs
      (.chunk c :: r.1, r.2)
    else ([.chunk c], true)

/-- One pass of the send loop's encode-and-send branch for a JPEG payload
`p`: write the big-endian length header (write number `0`), then the chunks
(write numbers `1, 2, …`); a short write (`ok k = false`) sets the error flag
and stops.  The `(uint32_t)` cast of the source is the `% 2 ^ 32`. -/
def sendFrameAttempt (p : List Nat) (ok : Nat → Bool) :
    List WireWrite × Bool :=
  let hdr := WireWrite.header (nativeToBig32 (p.length % 2 ^ 32))
  if ok 0 then
    let r := chunkAttempts ok 1 (chunksOf p)
    (hdr :: r.1, r.2)
  else ([hdr], true)

/-- What the send worker sees at one pass through its condition-variable
wait: either `cancel->load()` was true, or a staged frame was ready, whose
JPEG encoding is `payload` and whose bulk-write outcomes are `writeOk`. -/
inductive WakeEvent where
  /-- Cancellation observed at the wait point. -/
  | cancelObserved : WakeEvent
  /-- A ready frame; `payload` is the JPEG produced by `tjCompress2`,
  `writeOk k` whether bulk write `k` of this frame wrote all its bytes. -/
  | frame (payload : List Nat) (writeOk : Nat → Bool) : WakeEvent

/-- Observable outcome of a send-worker run. -/
structure SendLoopTrace where
  /-- All bulk writes issued on the OUT endpoint, in order. -/
  writes : List WireWrite
  /-- Number of `failureCallback()` invocations. -/
  failureCalls : Nat
  /-- Whether the `while (true)` loop exited. -/
  exited : Bool
  /-- Whether `cancel->store(true)` ran (it follows the loop). -/
  cancelStored : Bool

/-- The send worker body of `beginSendLoop`, run over the list of wake
events its environment produces.  An empty remainder means the worker is
still blocked in `_sendCv.wait` (the loop has not exited). -/
def sendLoopRun : List WakeEvent → SendLoopTrace
  | [] => { writes := [], failureCalls := 0, exited := false, cancelStored := false }
  | .cancelObserved :: _ =>
    { writes := [.terminationFrame], failureCalls := 0, exited := true,
      cancelStored := true }
  | .frame p ok :: rest =>
    let r := sendFrameAttempt p ok
    if r.2 then
      { writes := r.1, failureCalls := 1, exited := true, cancelStored := true }
    else
      let t := sendLoopRun rest
      { writes := r.1 ++ t.writes, failureCalls := t.failureCalls,
        exited := t.exited, cancelStored := t.cancelStored }

/-- Decoding the big-endian header recovers the declared length. -/
theorem beDecode32_nativeToBig32 (n : Nat) (h : n < 2 ^ 32) :
    beDecode32 (nativeToBig32 n) = n := by
  simp only [nativeToBig32, beDecode32]
  omega

/-- Concatenating the chunks restores the payload. -/
theorem chunksOf_flatten (p : List Nat) : (chunksOf p).flatten = p := by
  induction p using chunksOf.induct with
  | case1 => simp [chunksOf]
  | case2 l hne ih =>
    rw [chunksOf, if_neg hne]
    simp [ih]

/-- Every chunk has at most `BUFFER_LEN` bytes. -/
theorem chunksOf_length_le (p : List Nat) :
    ∀ c ∈ chunksOf p, c.length ≤ BUFFER_LEN := by
  induction p using chunksOf.induct with
  | case1 => simp [chunksOf]
  | case2 l hne ih =>
    rw [chunksOf, if_neg hne]
    intro c hc
    rcases List.mem_cons.mp hc with rfl | hmem
    · simp
    · exact ih c hmem

/-- When every bulk write reports full success, the chunk phase attempts
exactly the chunk list and reports no error. -/
theorem chunkAttempts_all_ok (ok : Nat → Bool) (hok : ∀ k, ok k = true) :
    ∀ cs k, chunkAttempts ok k cs = (cs.map .chunk, false) := by
  intro cs
  induction cs with
  | nil => intro k; simp [chunkAttempts]
  | cons c cs ih =>
    intro k
    simp [chunkAttempts, hok k, ih (k + 1)]

/-! ## Read loop (`MayaUsbDevice::beginReadLoop`)

The worker loops while not cancelled and the last status was success or
timeout; a successful read invokes `callback(inputBuffer)`, a timeout
retries, any other status ends the loop; if the loop ended without
cancellation the worker invokes `callback(nullptr)` once. -/

/-- One bulk-read outcome seen by the read-loop worker. -/
inductive ReadEvent where
  /-- `LIBUSB_ERROR_TIMEOUT`: retry. -/
  | timeout : ReadEvent
  /-- Status `0`: `frame` is the buffer contents handed to the callback. -/
  | data (frame : List Nat) : ReadEvent

/-- Why the read loop stopped: cancellation observed at the loop head, or a
status that is neither `0` nor timeout. -/
inductive ReadTerminal where
  | cancelObserved : ReadTerminal
  | fatalStatus : ReadTerminal

/-- Observable outcome of a read-loop-worker run; `none` in `callbackCalls`
is the `callback(nullptr)` failure sentinel. -/
structure ReadLoopRun where
  callbackCalls : List (Option (List Nat))
  cancelStored : Bool

/-- The read worker body of `beginReadLoop`: processes its reads in order,
then exits for reason `t`. -/
def readLoopRun : List ReadEvent → ReadTerminal → ReadLoopRun
  | [], .cancelObserved => { callbackCalls := [], cancelStored := true }
  | [], .fatalStatus => { callbackCalls := [none], cancelStored := true }
  | .timeout :: rest, t => readLoopRun rest t
  | .data f :: rest, t =>
    let r := readLoopRun rest t
    { callbackCalls := some f :: r.callbackCalls, cancelStored := r.cancelStored }

/-! ## Frame submission (`MayaUsbDevice::sendStereo`)

`sendStereo` tries `_sendMutex.try_lock()`; with the lock and `!_sendReady`
it decomposes the texture into `_rgbImageBuffer` (via the external
`ImageUtils`), records `_jpegBufferWidth = desc.fWidth` and
`_jpegBufferHeight = desc.fHeight / 2`, sets `_sendReady`, and returns
`true`; every other path returns `false` without touching that state. -/

/-- The two raster formats `sendStereo` accepts, plus everything else
(`MHWRender::MRasterFormat`). -/
inductive RasterFormat where
  | r32g32b32a32Float : RasterFormat
  | r8g8b8a8Unorm : RasterFormat
  | other (tag : Nat) : RasterFormat
  deriving Repr, DecidableEq

/-- `MHWRender::MTextureDescription`, reduced to the fields `sendStereo`
reads. -/
structure TextureDesc where
  fFormat : RasterFormat
  fWidth : Nat
  fHeight : Nat
  deriving Repr, DecidableEq

/-- Contents of the `_rgbImageBuffer` staging buffer.  The decomposition
itself is the external `ImageUtils` collaborator, so the buffer is tracked
symbolically: which decomposition ran, on which source data (named by an
identifier) and dimensions. -/
inductive RgbContent where
  /-- Whatever the buffer held before this submission. -/
  | stale (id : Nat) : RgbContent
  /-- Result of `ImageUtils::decomposeCheckerboardStereoFloat`. -/
  | decomposedFloat (data w h : Nat) : RgbContent
  /-- Result of `ImageUtils::decomposeCheckerboardStereoUchar`. -/
  | decomposedUchar (data w h : Nat) : RgbContent
  deriving Repr, DecidableEq

/-- The producer-visible shared state of the send pipeline. -/
structure SendState where
  sendReady : Bool
  rgbImageBuffer : RgbContent
  jpegBufferWidth : Nat
  jpegBufferHeight : Nat
  deriving Repr, DecidableEq

/-- `MayaUsbDevice::sendStereo`.  `lockFree` is whether
`_sendMutex.try_lock()` succeeds (the send loop is not mid-transmission);
`data` names the caller's pixel buffer.  Returns the accepted/dropped result
and the state after the call. -/
def sendStereo (lockFree : Bool) (st : SendState) (data : Nat)
    (desc : TextureDesc) : Bool × SendState :=
  if lockFree then
    if !st.sendReady then
      match desc.fFormat with
      | .r32g32b32a32Float =>
        (true,
          { sendReady := true
            rgbImageBuffer := .decomposedFloat data desc.fWidth desc.fHeight
            jpegBufferWidth := desc.fWidth
            jpegBufferHeight := desc.fHeight / 2 })
      | .r8g8b8a8Unorm =>
        (true,
          { sendReady := true
            rgbImageBuffer := .decomposedUchar data desc.fWidth desc.fHeight
            jpegBufferWidth := desc.fWidth
            jpegBufferHeight := desc.fHeight / 2 })
      | .other _ => (false, st)
    else (false, st)
  else (false, st)

/-! ## AOAP conversion (`MayaUsbDevice::convertToAccessory`,
`getControlInt16`, `sendControl`, `sendControlString`) -/

/-- A control transfer issued during the AOAP conversion. -/
inductive CtrlReq where
  /-- `getControlInt16(51)`: the vendor IN protocol-version read. -/
  | getProtocol : CtrlReq
  /-- `sendControlString(52, idx, s)`: vendor OUT string send. -/
  | sendString (idx : Nat) (s : String) : CtrlReq
  /-- `sendControl(53)`: vendor OUT start-accessory, no payload. -/
  | startAccessory : CtrlReq
  deriving Repr, DecidableEq

/-- Errors surfaced by `convertToAccessory`. -/
inductive AoapError where
  /-- One of the `throw … runtime_error("Could not …")` paths. -/
  | controlTransferError : AoapError
  /-- The `"AOA protocol version < 1"` rejection. -/
  | protocolUnsupported : AoapError
  deriving Repr, DecidableEq

/-- `getControlInt16` stores the two received bytes into an `int16_t`, so
the 16-bit pattern `raw` is read as a signed two's-complement value. -/
def toInt16 (raw : Nat) : Int :=
  if raw % 2 ^ 16 < 2 ^ 15 then (raw % 2 ^ 16 : Nat) else (raw % 2 ^ 16 : Nat) - 2 ^ 16

/-- The fixed OUT-request sequence of `convertToAccessory` after the version
check: the six identity strings at indices 0–5, then start-accessory. -/
def aoapRequests : List CtrlReq :=
  [.sendString 0 "SiriusCybernetics",
   .sendString 1 "MayaUsb",
   .sendString 2 "Maya USB streaming",
   .sendString 3 "0.42",
   .sendString 4 "https://sdao.me",
   .sendString 5 "42",
   .startAccessory]

/-- Issue requests in order until one's control transfer fails (`ok r =
false` is `libusb_control_transfer(…) < 0`, which throws); returns the
result and the requests actually issued. -/
def runRequests (ok : CtrlReq → Bool) :
    List CtrlReq → Except AoapError Unit × List CtrlReq
  | [] => (.ok (), [])
  | r :: rs =>
    if ok r then
      let t := runRequests ok rs
      (t.1, r :: t.2)
    else (.error .controlTransferError, [r])

/-- `MayaUsbDevice::convertToAccessory`: read the protocol version (`raw` is
the 16-bit pattern the device reports, `ok` which control transfers
succeed), reject a version below 1, then issue the string sends and the
start request.  Returns the outcome and every request issued. -/
def convertToAccessory (raw : Nat) (ok : CtrlReq → Bool) :
    Except AoapError Unit × List CtrlReq :=
  if ok .getProtocol then
    if toInt16 raw < 1 then (.error .protocolUnsupported, [.getProtocol])
    else
      let t := runRequests ok aoapRequests
      (t.1, .getProtocol :: t.2)
  else (.error .controlTransferError, [.getProtocol])

/-- `MayaUsbDevice::sendControlString`, reduced to the two byte counts that
matter: `str.copy(&temp[0], sizeof(temp))` copies `min(length, 256)` bytes
into the 256-byte stack buffer, while the transfer is handed `str.size()`
(truncated to libusb's `uint16_t wLength`). -/
def sendControlStringSizes (len : Nat) : Nat × Nat :=
  (min len 256, len % 2 ^ 16)

/-! ## Endpoint enumeration (constructor, lines 82–97)

The constructor walks `interfaceDesc.endpoint[0 … bNumEndpoints-1]`; an
endpoint whose address has bit 7 set (`LIBUSB_ENDPOINT_IN`) overwrites
`_inEndpoint`, otherwise it overwrites `_outEndpoint`.  `bmAttributes` is
never consulted. -/

/-- A `libusb_endpoint_descriptor`, reduced to the fields relevant here. -/
structure EndpointDesc where
  bEndpointAddress : Nat
  /-- Transfer type in the low two bits: `2` = bulk. -/
  bmAttributes : Nat
  deriving Repr, DecidableEq

/-- Direction test of the source:
`(endpoint.bEndpointAddress & 0b10000000) == LIBUSB_ENDPOINT_IN`. -/
def isInDir (e : EndpointDesc) : Bool :=
  e.bEndpointAddress % 256 / 128 = 1

/-- Bulk test per the USB descriptor layout (used only by the spec-side
reference, the source never performs it). -/
def isBulk (e : EndpointDesc) : Bool :=
  e.bmAttributes % 4 = 2

/-- The constructor's enumeration loop.  Modelled from the spec: the
member declarations of `_inEndpoint`/`_outEndpoint` live in the
`MayaUsbStreamer` header that is not among the sources, and the spec fixes
zero as the "not present" initial value, so the fold starts from `(0, 0)`. -/
def enumEndpoints (eps : List EndpointDesc) : Nat × Nat :=
  eps.foldl
    (fun s e =>
      if isInDir e then (e.bEndpointAddress, s.2) else (s.1, e.bEndpointAddress))
    (0, 0)

/-- The spec's reading of the enumeration: the address of the *first*
IN-direction *bulk* endpoint (zero when absent). -/
def specFirstBulkIn (eps : List EndpointDesc) : Nat :=
  match (eps.filter fun e => isInDir e && isBulk e).head? with
  | some e => e.bEndpointAddress
  | none => 0

/-- What the code records for a direction: the address of the *last*
endpoint of that direction, any transfer type (zero when absent). -/
def lastDirAddr (dir : Bool) (eps : List EndpointDesc) : Nat :=
  match (eps.reverse.filter fun e => isInDir e = dir).head? with
  | some e => e.bEndpointAddress
  | none => 0

/-! ## Helper lemmas -/

/-- When every control transfer succeeds, the whole request list is issued
and the run succeeds. -/
theorem runRequests_all_ok (ok : CtrlReq → Bool) :
    ∀ rs, (∀ r ∈ rs, ok r = true) → runRequests ok rs = (.ok (), rs) := by
  intro rs
  induction rs with
  | nil => intro _; rfl
  | cons r rs ih =>
    intro h
    simp [runRequests, h r (List.mem_cons_self r rs),
      ih (fun x hx => h x (List.mem_cons_of_mem r hx))]

/-- If the first failing control transfer is request number `k`, exactly the
first `k + 1` requests are issued and the run aborts. -/
theorem runRequests_abort (ok : CtrlReq → Bool) :
    ∀ rs k d, k < rs.length → (∀ r ∈ rs.take k, ok r = true) →
      ok (rs.getD k d) = false →
      runRequests ok rs = (.error .controlTransferError, rs.take (k + 1)) := by
  intro rs
  induction rs with
  | nil => intro k d hk; exact absurd hk (by simp)
  | cons r rs ih =>
    intro k d hk hpre hfail
    match k with
    | 0 =>
      have hr : ok r = false := by simpa using hfail
      simp [runRequests, hr]
    | k' + 1 =>
      have hr : ok r = true := hpre r (by simp [List.take_succ_cons])
      simp only [runRequests, hr, if_true, List.take_succ_cons]
      have := ih k' d (by simpa using hk)
        (fun x hx => hpre x (by simp [List.take_succ_cons, hx]))
        (by simpa using hfail)
      simp [this]

/-- The chunk phase never issues the termination write. -/
theorem terminationFrame_not_mem_chunkAttempts (ok : Nat → Bool) :
    ∀ cs k, WireWrite.terminationFrame ∉ (chunkAttempts ok k cs).1 := by
  intro cs
  induction cs with
  | nil => intro k; simp [chunkAttempts]
  | cons c cs ih =>
    intro k
    by_cases h : ok k = true
    · simp [chunkAttempts, h, ih (k + 1)]
    · simp only [Bool.not_eq_true] at h
      simp [chunkAttempts, h]

/-- A frame transmission never issues the termination write. -/
theorem terminationFrame_not_mem_sendFrameAttempt (p : List Nat)
    (ok : Nat → Bool) :
    WireWrite.terminationFrame ∉ (sendFrameAttempt p ok).1 := by
  by_cases h : ok 0 = true
  · simp [sendFrameAttempt, h, terminationFrame_not_mem_chunkAttempts]
  · simp only [Bool.not_eq_true] at h
    simp [sendFrameAttempt, h]

/-- Writes of one wake event (used to describe the trace prefix before a
cancellation). -/
def eventWrites : WakeEvent → List WireWrite
  | .cancelObserved => [.terminationFrame]
  | .frame p ok => (sendFrameAttempt p ok).1

/-- A wake event the loop survives: a frame whose writes all succeed. -/
def eventOk : WakeEvent → Prop
  | .cancelObserved => False
  | .frame p ok => (sendFrameAttempt p ok).2 = false

/-! ## Claim theorems -/

/-- C1: the handshake worker, in a non-cancelled run that obtained a bulk
read of `read` bytes, reports success iff the read returned exactly 16384
bytes and every offset `i` holds `i mod 256`; the early-exit scan is
observably equivalent to the full scan; the computed boolean is stored in
the shared handshake flag and passed to the callback. -/
theorem handshake_success_iff (read : Nat) (buf : Nat → Nat) :
    (waitHandshakeWorker false read buf).handshakeStore =
      some (hsSuccess read buf) ∧
    (waitHandshakeWorker false read buf).callbackCalls = [hsSuccess read buf] ∧
    (hsSuccess read buf = true ↔
      read = 16384 ∧ ∀ i, i < 16384 → buf i = i % 256) ∧
    hsScan buf 0 BUFFER_LEN = hsFullScan buf := by
  refine ⟨rfl, rfl, ?_, hsScan_eq_fullScan buf⟩
  unfold hsSuccess
  by_cases h : read = BUFFER_LEN
  · rw [if_pos h, hsScan_eq_true_iff]
    unfold BUFFER_LEN at h ⊢
    constructor
    · intro hall; exact ⟨h, fun i hi => hall i (Nat.zero_le i) (by omega)⟩
    · intro ⟨_, hall⟩ j _ hj; exact hall j (by omega)
  · rw [if_neg h]
    unfold BUFFER_LEN at h
    simp [h]

/-- C8: a handshake-worker run cancelled before data arrives never invokes
the callback; a non-cancelled run in which data arrived invokes it exactly
once, with the boolean handshake result. -/
theorem handshake_callback_exactly_once (read : Nat) (buf : Nat → Nat) :
    (waitHandshakeWorker true read buf).callbackCalls = [] ∧
    (waitHandshakeWorker false read buf).callbackCalls = [hsSuccess read buf] :=
  ⟨rfl, rfl⟩

/-- C10: each worker body (handshake, read loop, send loop) stores `true`
into its own cancellation flag as its final step on every exit path. -/
theorem workers_store_cancel_on_exit :
    (∀ cancelled read buf,
      (waitHandshakeWorker cancelled read buf).cancelStored = true) ∧
    (∀ evts t, (readLoopRun evts t).cancelStored = true) ∧
    (∀ evts, (sendLoopRun evts).exited = true →
      (sendLoopRun evts).cancelStored = true) := by
  refine ⟨?_, ?_, ?_⟩
  · intro cancelled read buf
    cases cancelled <;> rfl
  · intro evts
    induction evts with
    | nil => intro t; cases t <;> rfl
    | cons e rest ih =>
      intro t
      cases e with
      | timeout => exact ih t
      | data f => simpa [readLoopRun] using ih t
  · intro evts
    induction evts with
    | nil => intro h; exact absurd h (by simp [sendLoopRun])
    | cons e rest ih =>
      intro h
      cases e with
      | cancelObserved => rfl
      | frame p ok =>
        by_cases herr : (sendFrameAttempt p ok).2 = true
        · simp [sendLoopRun, herr]
        · simp only [Bool.not_eq_true] at herr
          simp only [sendLoopRun, herr, Bool.false_eq_true, if_false] at h ⊢
          exact ih h

/-- C10 witness: each worker model exercised at a concrete exit. -/
theorem workers_store_cancel_on_exit_witness :
    (waitHandshakeWorker true 0 (fun _ => 0)).cancelStored = true ∧
    (readLoopRun [] .cancelObserved).cancelStored = true ∧
    (sendLoopRun [.cancelObserved]).cancelStored = true :=
  ⟨workers_store_cancel_on_exit.1 true 0 (fun _ => 0),
   workers_store_cancel_on_exit.2.1 [] .cancelObserved,
   workers_store_cancel_on_exit.2.2 [.cancelObserved] rfl⟩

/-- C2: a frame whose writes all succeed puts on the wire a 4-byte header
holding the payload's exact length in big-endian order, then the payload in
chunks of at most 16384 bytes; decoding the header and reading exactly that
many bytes reconstructs the payload; and the send loop emits exactly these
writes for the frame before continuing. -/
theorem send_frame_wire_format (p : List Nat) (ok : Nat → Bool)
    (hok : ∀ k, ok k = true) (hlen : p.length < 2 ^ 32) :
    (sendFrameAttempt p ok).2 = false ∧
    (sendFrameAttempt p ok).1 =
      .header (nativeToBig32 p.length) :: (chunksOf p).map .chunk ∧
    beDecode32 (nativeToBig32 p.length) = p.length ∧
    (∀ c ∈ chunksOf p, c.length ≤ 16384) ∧
    ((chunksOf p).flatten).take (beDecode32 (nativeToBig32 p.length)) = p ∧
    (∀ rest, (sendLoopRun (.frame p ok :: rest)).writes =
      (sendFrameAttempt p ok).1 ++ (sendLoopRun rest).writes) := by
  have hlen' : p.length < 4294967296 := by
    have : (2 : Nat) ^ 32 = 4294967296 := by norm_num
    omega
  have hmod : p.length % 4294967296 = p.length := Nat.mod_eq_of_lt hlen'
  have hattempt : sendFrameAttempt p ok =
      (.header (nativeToBig32 p.length) :: (chunksOf p).map .chunk, false) := by
    simp [sendFrameAttempt, hok 0, chunkAttempts_all_ok ok hok, hmod]
  refine ⟨by simp [hattempt], by simp [hattempt],
    beDecode32_nativeToBig32 p.length hlen, ?_, ?_, ?_⟩
  · simpa [BUFFER_LEN] using chunksOf_length_le p
  · rw [beDecode32_nativeToBig32 p.length hlen, chunksOf_flatten,
      List.take_length]
  · intro rest
    simp [sendLoopRun, hattempt]

/-- C2 witness: a concrete 3-byte payload with all writes succeeding. -/
theorem send_frame_wire_format_witness :
    (sendFrameAttempt [1, 2, 3] (fun _ => true)).1 =
      .header (nativeToBig32 3) :: (chunksOf [1, 2, 3]).map .chunk ∧
    beDecode32 (nativeToBig32 3) = 3 :=
  ⟨(send_frame_wire_format [1, 2, 3] (fun _ => true) (fun _ => rfl)
      (by decide)).2.1,
   (send_frame_wire_format [1, 2, 3] (fun _ => true) (fun _ => rfl)
      (by decide)).2.2.1⟩

/-- C3: `sendStereo` returns dropped and leaves the staged buffer, recorded
width/height and ready flag unchanged whenever the lock is unavailable or a
frame is already pending; it returns accepted only when the lock was free
and no frame was pending, and then the state holds the staged frame with
the ready flag set. -/
theorem sendStereo_drop_semantics (lockFree : Bool) (st : SendState)
    (data : Nat) (desc : TextureDesc) :
    ((lockFree = false ∨ st.sendReady = true) →
      sendStereo lockFree st data desc = (false, st)) ∧
    ((sendStereo lockFree st data desc).1 = true →
      lockFree = true ∧ st.sendReady = false ∧
      (sendStereo lockFree st data desc).2.sendReady = true ∧
      (sendStereo lockFree st data desc).2.jpegBufferWidth = desc.fWidth ∧
      (sendStereo lockFree st data desc).2.jpegBufferHeight =
        desc.fHeight / 2 ∧
      ((sendStereo lockFree st data desc).2.rgbImageBuffer =
          .decomposedFloat data desc.fWidth desc.fHeight ∨
        (sendStereo lockFree st data desc).2.rgbImageBuffer =
          .decomposedUchar data desc.fWidth desc.fHeight)) := by
  cases lockFree with
  | false => exact ⟨fun _ => rfl, by simp [sendStereo]⟩
  | true =>
    cases hready : st.sendReady with
    | true =>
      refine ⟨fun _ => ?_, ?_⟩
      · simp [sendStereo, hready]
      · simp [sendStereo, hready]
    | false =>
      refine ⟨fun h => ?_, fun _ => ?_⟩
      · rcases h with h | h
        · exact absurd h (by simp)
        · exact absurd h (by simp [hready])
      · cases hfmt : desc.fFormat <;>
          simp_all [sendStereo, hready, hfmt]

/-- C3 witness: an unavailable lock drops the frame and changes nothing. -/
theorem sendStereo_drop_semantics_witness :
    sendStereo false ⟨false, .stale 7, 5, 5⟩ 3 ⟨.r8g8b8a8Unorm, 8, 6⟩ =
      (false, ⟨false, .stale 7, 5, 5⟩) :=
  (sendStereo_drop_semantics false ⟨false, .stale 7, 5, 5⟩ 3
    ⟨.r8g8b8a8Unorm, 8, 6⟩).1 (Or.inl rfl)

/-- C4: `convertToAccessory` rejects a reported protocol version below 1
with the protocol-unsupported error before issuing any OUT request; with a
version of at least 1 and all transfers succeeding it issues exactly the six
string sends at indices 0–5 with the fixed literals, then the single
start-accessory request, and succeeds; a transfer failure at any step stops
the sequence at the failing request. -/
theorem convertToAccessory_sequence (raw : Nat) (ok : CtrlReq → Bool) :
    (ok .getProtocol = true → toInt16 raw < 1 →
      convertToAccessory raw ok = (.error .protocolUnsupported,
        [.getProtocol])) ∧
    ((∀ r, ok r = true) → 1 ≤ toInt16 raw →
      convertToAccessory raw ok = (.ok (), .getProtocol :: aoapRequests)) ∧
    (∀ k, k < aoapRequests.length → ok .getProtocol = true →
      1 ≤ toInt16 raw → (∀ r ∈ aoapRequests.take k, ok r = true) →
      ok (aoapRequests.getD k .startAccessory) = false →
      convertToAccessory raw ok = (.error .controlTransferError,
        .getProtocol :: aoapRequests.take (k + 1))) := by
  refine ⟨?_, ?_, ?_⟩
  · intro hok hlt
    simp [convertToAccessory, hok, hlt]
  · intro hok hge
    have hlt : ¬ toInt16 raw < 1 := by omega
    simp [convertToAccessory, hok .getProtocol, hlt,
      runRequests_all_ok ok aoapRequests (fun r _ => hok r)]
  · intro k hk hok hge hpre hfail
    have hlt : ¬ toInt16 raw < 1 := by omega
    simp [convertToAccessory, hok, hlt,
      runRequests_abort ok aoapRequests k .startAccessory hk hpre hfail]

/-- C4 witness: reported version 2 with every transfer succeeding issues
the full six-string-plus-start sequence and raises no error. -/
theorem convertToAccessory_sequence_witness :
    convertToAccessory 2 (fun _ => true) =
      (.ok (), .getProtocol :: aoapRequests) :=
  (convertToAccessory_sequence 2 (fun _ => true)).2.1 (fun _ => rfl)
    (by decide)

/-- C9: a reported 16-bit version pattern with the high bit set is read as
a negative `int16_t`, compares below 1, and the conversion is rejected as
unsupported even though the same pattern read unsigned is at least 1. -/
theorem protocol_version_signed_rejection (raw : Nat) (ok : CtrlReq → Bool)
    (hlo : 2 ^ 15 ≤ raw) (hhi : raw < 2 ^ 16) (hok : ok .getProtocol = true) :
    toInt16 raw < 1 ∧ 1 ≤ raw ∧
    convertToAccessory raw ok =
      (.error .protocolUnsupported, [.getProtocol]) := by
  have hmod : raw % 2 ^ 16 = raw := Nat.mod_eq_of_lt hhi
  have hneg : toInt16 raw < 1 := by
    unfold toInt16
    rw [hmod, if_neg (by omega)]
    omega
  exact ⟨hneg, by omega, by simp [convertToAccessory, hok, hneg]⟩

/-- C9 witness: pattern `0x8000` (unsigned 32768) is rejected. -/
theorem protocol_version_signed_rejection_witness :
    toInt16 32768 < 1 ∧ 1 ≤ 32768 ∧
    convertToAccessory 32768 (fun _ => true) =
      (.error .protocolUnsupported, [.getProtocol]) :=
  protocol_version_signed_rejection 32768 (fun _ => true) (by decide)
    (by decide) rfl

/-- C6 (code evaluated at the failing input): a 300-byte string has only
256 bytes copied into the 256-byte stack buffer, yet the control transfer
is handed all 300 bytes — more than were copied, and above the claimed
255-byte cap. -/
theorem sendControlString_over_read_at_300 :
    (sendControlStringSizes 300).1 = 256 ∧
    (sendControlStringSizes 300).2 = 300 ∧
    (sendControlStringSizes 300).1 < (sendControlStringSizes 300).2 ∧
    255 < (sendControlStringSizes 300).2 := by
  refine ⟨rfl, rfl, by decide, by decide⟩

/-- C7: when the send loop observes cancellation at its wait point — after
any number of successfully transmitted frames — it issues exactly one
4-byte all-zero termination write as its final write, transmits no further
frame, exits the loop, and never invokes the failure callback. -/
theorem send_loop_cancel_behavior (pre rest : List WakeEvent)
    (hpre : ∀ e ∈ pre, eventOk e) :
    (sendLoopRun (pre ++ .cancelObserved :: rest)).writes =
      (pre.map eventWrites).flatten ++ [.terminationFrame] ∧
    WireWrite.terminationFrame ∉ (pre.map eventWrites).flatten ∧
    (sendLoopRun (pre ++ .cancelObserved :: rest)).failureCalls = 0 ∧
    (sendLoopRun (pre ++ .cancelObserved :: rest)).exited = true := by
  induction pre with
  | nil => exact ⟨rfl, by simp, rfl, rfl⟩
  | cons e pre ih =>
    have he : eventOk e := hpre e (List.mem_cons_self e pre)
    have htail : ∀ x ∈ pre, eventOk x :=
      fun x hx => hpre x (List.mem_cons_of_mem e hx)
    cases e with
    | cancelObserved => exact absurd he id
    | frame p ok =>
      have herr : (sendFrameAttempt p ok).2 = false := he
      have hrun : sendLoopRun ((WakeEvent.frame p ok :: pre) ++
          .cancelObserved :: rest) =
          { writes := (sendFrameAttempt p ok).1 ++
              (sendLoopRun (pre ++ .cancelObserved :: rest)).writes
            failureCalls :=
              (sendLoopRun (pre ++ .cancelObserved :: rest)).failureCalls
            exited := (sendLoopRun (pre ++ .cancelObserved :: rest)).exited
            cancelStored :=
              (sendLoopRun (pre ++ .cancelObserved :: rest)).cancelStored } := by
        simp [sendLoopRun, herr]
      rcases ih htail with ⟨hw, hmem, hf, hx⟩
      refine ⟨?_, ?_, ?_, ?_⟩
      · rw [hrun]
        simp [hw, eventWrites]
      · simp only [List.map_cons, List.flatten_cons, List.mem_append]
        rintro (hin | hin)
        · exact terminationFrame_not_mem_sendFrameAttempt p ok hin
        · exact hmem hin
      · rw [hrun]; exact hf
      · rw [hrun]; exact hx

/-- C7 witness: cancellation observed with no preceding frames. -/
theorem send_loop_cancel_behavior_witness :
    (sendLoopRun [.cancelObserved]).writes = [.terminationFrame] ∧
    (sendLoopRun [.cancelObserved]).failureCalls = 0 ∧
    (sendLoopRun [.cancelObserved]).exited = true :=
  ⟨by simpa using (send_loop_cancel_behavior [] []
      (fun e he => absurd he (List.not_mem_nil e))).1,
   (send_loop_cancel_behavior [] []
      (fun e he => absurd he (List.not_mem_nil e))).2.2.1,
   (send_loop_cancel_behavior [] []
      (fun e he => absurd he (List.not_mem_nil e))).2.2.2⟩

/-- C5 counterexample: an interface whose IN endpoints are a bulk endpoint
at address `0x81` followed by an interrupt endpoint at `0x83`.  The first
IN-direction bulk endpoint is `0x81`, but the constructor records `0x83`:
it keeps the last IN-direction endpoint seen and never checks the bulk
transfer type. -/
theorem enum_not_first_bulk_counterexample :
    (enumEndpoints [⟨129, 2⟩, ⟨131, 3⟩]).1 ≠
      specFirstBulkIn [⟨129, 2⟩, ⟨131, 3⟩] := by
  decide

/-- C5 (amended): endpoint enumeration records, per direction, the address
of the *last* endpoint of that direction in the first interface's first
alternate setting, regardless of transfer type; the recorded address is
zero when the direction has no endpoint, and enumeration never fails. -/
theorem enum_records_last_per_direction (eps : List EndpointDesc) :
    (enumEndpoints eps).1 = lastDirAddr true eps ∧
    (enumEndpoints eps).2 = lastDirAddr false eps := by
  have main : ∀ (l : List EndpointDesc) (s : Nat × Nat),
      l.foldl (fun s e => if isInDir e then (e.bEndpointAddress, s.2)
        else (s.1, e.bEndpointAddress)) s =
      (match (l.reverse.filter fun e => isInDir e = true).head? with
        | some e => e.bEndpointAddress
        | none => s.1,
       match (l.reverse.filter fun e => isInDir e = false).head? with
        | some e => e.bEndpointAddress
        | none => s.2) := by
    intro l
    induction l using List.reverseRecOn with
    | nil => intro s; simp
    | append_singleton l e ihl =>
      intro s
      rw [List.foldl_append, ihl s]
      cases hdir : isInDir e with
      | true => simp [hdir, List.filter_cons]
      | false => simp [hdir, List.filter_cons]
  unfold enumEndpoints lastDirAddr
  rw [main]
  exact ⟨rfl, rfl⟩

end MayaUsb
